import Mathlib

/-!
Verification of the `jack-midi-sink` decode-and-report pipeline.

The repository consists of `src/main.rs` (the JACK process handler
`Ports::process`, the `RawMidi` Debug formatter, logger glue) and
`src/cli.rs` (option parsing, out of scope).  The MIDI decoder itself is
the external function `nom_midi::parser::parse_midi_event`; its source is
not part of this repository, so it is modelled here from the
specification (§3, §4.1).  The reporter loop and the raw-byte hex
rendering are embedded directly from `src/main.rs`.

Bytes are modelled as `Nat` (a `u8` value is a natural number below 256;
hypotheses state the bound where it matters).
-/

namespace JackMidiSink

/-- Modelled from the spec: the tagged variants of `MidiEvent` recognized by
the decoder (`nom_midi::MidiEventType`, source not in this repository).
The channel-voice message kinds of MIDI; each field is a semantic value in
[0,127]. -/
inductive MidiEventType where
  | NoteOff (note velocity : Nat)
  | NoteOn (note velocity : Nat)
  | PolyphonicPressure (note pressure : Nat)
  | Controller (controller value : Nat)
  | ProgramChange (program : Nat)
  | ChannelPressure (pressure : Nat)
  | PitchBend (lsb msb : Nat)
  deriving DecidableEq, Repr

/-- Modelled from the spec: a structured MIDI event (`nom_midi::MidiEvent`,
source not in this repository): a channel in [0,15] plus the message kind. -/
structure MidiEvent where
  channel : Nat
  event : MidiEventType
  deriving DecidableEq, Repr

/-- Modelled from the spec: `DecodeOutcome` — either a structured event plus
the count of bytes consumed, or a decode failure with a reason. -/
inductive DecodeOutcome where
  | Decoded (evt : MidiEvent) (bytes_consumed : Nat)
  | Failed (reason : String)
  deriving DecidableEq, Repr

/-- Modelled from the spec: the number of data bytes a channel-voice status
byte with high nibble `hi` requires (Program Change and Channel Pressure
take one data byte, the other channel-voice kinds take two). -/
def requiredDataBytes (hi : Nat) : Nat :=
  match hi with
  | 12 => 1
  | 13 => 1
  | _ => 2

/-- Modelled from the spec: construct the recognized event for high nibble
`hi`, channel `ch` and validated data bytes `data`.  The fallback branch is
unreachable for channel-voice nibbles with the right data-byte count. -/
def mkEvent (hi ch : Nat) (data : List Nat) : DecodeOutcome :=
  match hi, data with
  | 8, [a, b] => .Decoded ⟨ch, .NoteOff a b⟩ 3
  | 9, [a, b] => .Decoded ⟨ch, .NoteOn a b⟩ 3
  | 10, [a, b] => .Decoded ⟨ch, .PolyphonicPressure a b⟩ 3
  | 11, [a, b] => .Decoded ⟨ch, .Controller a b⟩ 3
  | 12, [a] => .Decoded ⟨ch, .ProgramChange a⟩ 2
  | 13, [a] => .Decoded ⟨ch, .ChannelPressure a⟩ 2
  | 14, [a, b] => .Decoded ⟨ch, .PitchBend a b⟩ 3
  | _, _ => .Failed "unsupported status"

/-- Modelled from the spec: the decoder
(`nom_midi::parser::parse_midi_event`, invoked at `src/main.rs:43`; its
source is not part of this repository).  §4.1: inspect the leading status
byte's high nibble; empty slice fails with "empty frame"; a leading byte
with the high bit clear fails with "unexpected data byte"; system /
reserved status bytes (high nibble 0xF) fail with "unsupported status"; a
slice shorter than the required data-byte count fails with "truncated"; a
required data byte with its high bit set is a failure; otherwise the
structured event is produced together with the bytes consumed. -/
def decode (bytes : List Nat) : DecodeOutcome :=
  match bytes with
  | [] => .Failed "empty frame"
  | s :: rest =>
    if s < 128 then .Failed "unexpected data byte"
    else if 240 ≤ s then .Failed "unsupported status"
    else if rest.length < requiredDataBytes (s / 16) then .Failed "truncated"
    else if (rest.take (requiredDataBytes (s / 16))).any (fun d => 128 ≤ d) then
      .Failed "data byte out of range"
    else mkEvent (s / 16) (s % 16) (rest.take (requiredDataBytes (s / 16)))

/-- All semantic fields of a message kind lie in [0,127]. -/
def MidiEventType.fieldsInRange : MidiEventType → Bool
  | .NoteOff a b => a ≤ 127 && b ≤ 127
  | .NoteOn a b => a ≤ 127 && b ≤ 127
  | .PolyphonicPressure a b => a ≤ 127 && b ≤ 127
  | .Controller a b => a ≤ 127 && b ≤ 127
  | .ProgramChange a => a ≤ 127
  | .ChannelPressure a => a ≤ 127
  | .PitchBend a b => a ≤ 127 && b ≤ 127

/-- The event's channel lies in [0,15] and all its fields in [0,127]. -/
def MidiEvent.inRange (e : MidiEvent) : Bool :=
  e.channel ≤ 15 && e.event.fieldsInRange

/-- A raw MIDI frame as delivered by the host (`jack::RawMidi` at
`src/main.rs:42`): a frame-offset timestamp and the raw bytes. -/
structure RawMidiFrame where
  time : Nat
  bytes : List Nat
  deriving DecidableEq, Repr

/-- The control signal a JACK process callback returns (`jack::Control`). -/
inductive Control where
  | Continue
  | Quit
  deriving DecidableEq, Repr

/-- One report emitted by the process callback: `src/main.rs:45` logs a
decoded event with the frame's time and raw bytes; `src/main.rs:48` logs
an unparseable frame with its raw bytes and time. -/
inductive Report where
  | received (evt : MidiEvent) (time : Nat) (raw : List Nat)
  | unparseable (raw : List Nat) (time : Nat)
  deriving DecidableEq, Repr

/-- The body of the loop in `Ports::process` (`src/main.rs:43`-`54`):
decode one frame and report either the event or the failure, in both cases
paired with the frame's timestamp and its raw bytes. -/
def processFrame (frame : RawMidiFrame) : Report :=
  match decode frame.bytes with
  | .Decoded evt _ => .received evt frame.time frame.bytes
  | .Failed _ => .unparseable frame.bytes frame.time

/-- The `for raw_midi in self.sink.iter(...)` loop of `Ports::process`
(`src/main.rs:42`-`55`): one report per frame, in iteration order. -/
def processReports : List RawMidiFrame → List Report
  | [] => []
  | frame :: rest => processFrame frame :: processReports rest

/-- `Ports::process` (`src/main.rs:40`-`57`): report every frame of the
cycle in order, then return `Control::Continue`. -/
def process (frames : List RawMidiFrame) : List Report × Control :=
  (processReports frames, .Continue)

/-- The timestamp a report is paired with. -/
def Report.time : Report → Nat
  | .received _ t _ => t
  | .unparseable _ t => t

/-- The raw bytes a report is paired with. -/
def Report.raw : Report → List Nat
  | .received _ _ r => r
  | .unparseable r _ => r

/-- Rust's `{:x}` formatting of a byte: lowercase, unpadded hexadecimal. -/
def hexByte (n : Nat) : String :=
  String.mk (Nat.toDigits 16 n)

/-- The `fmt::Debug` implementation for `RawMidi` (`src/main.rs:117`-`129`):
write "[", then the first byte in lowercase hex when present, then each
further byte prefixed with ", ", then "]". -/
def rawMidiDebug (bytes : List Nat) : String :=
  "[" ++
    (match bytes with
      | [] => ""
      | b :: rest => hexByte b ++ String.join (rest.map fun c => ", " ++ hexByte c)) ++
  "]"

/-- The rendering described by the claim: "[" followed by the lowercase,
unpadded hexadecimal rendering of each byte in order, separated by ", ",
followed by "]". -/
def rawMidiRendered (bytes : List Nat) : String :=
  "[" ++ String.intercalate ", " (bytes.map hexByte) ++ "]"

/-- C1: for every well-formed 3-byte Note-On input (status byte `0x90 + n`
with channel nibble `n ≤ 15`, note and velocity in [0,127]), the decoder
returns `Decoded (NoteOn {channel := n, note, velocity}) 3`, consuming
exactly 3 bytes. -/
theorem decode_noteOn (n note vel : Nat) (hn : n ≤ 15) (hnote : note ≤ 127)
    (hvel : vel ≤ 127) :
    decode ((144 + n) :: note :: vel :: []) =
      .Decoded ⟨n, .NoteOn note vel⟩ 3 := by
  have h1 : ¬ (144 + n < 128) := by omega
  have h2 : ¬ (240 ≤ 144 + n) := by omega
  have h3 : (144 + n) / 16 = 9 := by omega
  have h4 : (144 + n) % 16 = n := by omega
  have h5 : ¬ (128 ≤ note) := by omega
  have h6 : ¬ (128 ≤ vel) := by omega
  simp [decode, h1, h2, h3, h4, h5, h6, requiredDataBytes, mkEvent]

/-- Witness for C1: `[0x90, 0x3C, 0x40]` decodes to NoteOn channel 0,
note 60, velocity 64, consuming 3 bytes. -/
theorem decode_noteOn_witness :
    decode [144, 60, 64] = .Decoded ⟨0, .NoteOn 60 64⟩ 3 :=
  decode_noteOn 0 60 64 (by decide) (by decide) (by decide)

/-- C4: every byte slice of length 0 decodes to `Failed "empty frame"`. -/
theorem decode_empty (bytes : List Nat) (h : bytes.length = 0) :
    decode bytes = .Failed "empty frame" := by
  cases bytes with
  | nil => rfl
  | cons b rest => simp at h

/-- Witness for C4: the empty slice decodes to `Failed "empty frame"`. -/
theorem decode_empty_witness : decode [] = .Failed "empty frame" :=
  decode_empty [] rfl

/-- C6: every non-empty slice whose leading status byte requires more data
bytes than the slice contains decodes to `Failed "truncated"`; in
particular `[0xB0, 0xFF]` (Control Change missing its value byte) is
`Failed "truncated"`, and the process loop reports it alongside the
original raw bytes. -/
theorem decode_truncated :
    (∀ (s : Nat) (rest : List Nat), 128 ≤ s → s < 240 →
        rest.length < requiredDataBytes (s / 16) →
        decode (s :: rest) = .Failed "truncated") ∧
    decode [176, 255] = .Failed "truncated" ∧
    (∀ t : Nat, processFrame ⟨t, [176, 255]⟩ = .unparseable [176, 255] t) := by
  refine ⟨?_, by decide, fun t => rfl⟩
  intro s rest hs1 hs2 hlen
  have h1 : ¬ (s < 128) := by omega
  have h2 : ¬ (240 ≤ s) := by omega
  simp [decode, h1, h2, hlen]

/-- Witness for C6: the general truncation statement applied to
`[0xB0, 0xFF]`. -/
theorem decode_truncated_witness :
    decode [176, 255] = DecodeOutcome.Failed "truncated" :=
  decode_truncated.1 176 [255] (by decide) (by decide) (by decide)

/-- C8: every input slice whose leading byte is a system / reserved status
byte (high nibble 0xF, covering System Exclusive boundaries and undefined
system common messages) decodes to `Failed "unsupported status"`. -/
theorem decode_unsupported_status (s : Nat) (rest : List Nat)
    (h : 240 ≤ s) :
    decode (s :: rest) = .Failed "unsupported status" := by
  have h1 : ¬ (s < 128) := by omega
  simp [decode, h1, h]

/-- Witness for C8: `[0xF0]` (System Exclusive start) decodes to
`Failed "unsupported status"`. -/
theorem decode_unsupported_status_witness :
    decode [240] = DecodeOutcome.Failed "unsupported status" :=
  decode_unsupported_status 240 [] (by decide)

/-- Any event `mkEvent` builds from a channel in [0,15] and data bytes in
[0,127] has all semantic fields in range. -/
theorem mkEvent_inRange (hi ch : Nat) (data : List Nat) (evt : MidiEvent)
    (n : Nat) (hch : ch ≤ 15) (hdata : ∀ d ∈ data, d ≤ 127)
    (h : mkEvent hi ch data = .Decoded evt n) : evt.inRange = true := by
  unfold mkEvent at h
  split at h <;> simp at h <;>
    (obtain ⟨hevt, hn⟩ := h
     subst hevt
     simp_all [MidiEvent.inRange, MidiEventType.fieldsInRange])

/-- `mkEvent` reports exactly one more byte consumed than the data bytes
it was given, whenever it succeeds. -/
theorem mkEvent_consumed (hi ch : Nat) (data : List Nat) (evt : MidiEvent)
    (n : Nat) (h : mkEvent hi ch data = .Decoded evt n) :
    n = data.length + 1 := by
  unfold mkEvent at h
  split at h <;> simp_all

/-- C5: whenever a required data byte has its high bit set the decoder
fails, and no Decoded outcome ever carries an out-of-range field (channel
outside [0,15] or a data field outside [0,127]). -/
theorem decode_no_invalid_event :
    (∀ (s : Nat) (rest : List Nat),
        (∃ d ∈ rest.take (requiredDataBytes (s / 16)), 128 ≤ d) →
        ∃ r, decode (s :: rest) = .Failed r) ∧
    (∀ (bytes : List Nat) (evt : MidiEvent) (n : Nat),
        decode bytes = .Decoded evt n → evt.inRange = true) := by
  constructor
  · rintro s rest ⟨d, hmem, hd⟩
    by_cases h1 : s < 128
    · exact ⟨"unexpected data byte", by simp [decode, h1]⟩
    by_cases h2 : 240 ≤ s
    · exact ⟨"unsupported status", by simp [decode, h1, h2]⟩
    by_cases h3 : rest.length < requiredDataBytes (s / 16)
    · exact ⟨"truncated", by simp [decode, h1, h2, h3]⟩
    have hany : (rest.take (requiredDataBytes (s / 16))).any
        (fun d => 128 ≤ d) = true := by
      simp only [List.any_eq_true, decide_eq_true_eq]
      exact ⟨d, hmem, hd⟩
    exact ⟨"data byte out of range", by simp [decode, h1, h2, h3, hany]⟩
  · intro bytes evt n h
    match bytes with
    | [] => exact absurd h (by simp [decode])
    | s :: rest =>
      simp only [decode] at h
      split_ifs at h with h1 h2 h3 h4
      have hall : ∀ d ∈ rest.take (requiredDataBytes (s / 16)), d ≤ 127 := by
        intro d hd
        by_contra hgt
        apply h4
        simp only [List.any_eq_true, decide_eq_true_eq]
        exact ⟨d, hd, by omega⟩
      exact mkEvent_inRange _ _ _ _ _ (by omega) hall h

/-- Witness for C5: `[0x90, 0xC8, 0x01]` (note byte 200 has the high bit
set) fails, and the event decoded from `[0x90, 0x3C, 0x40]` has all its
fields in range. -/
theorem decode_no_invalid_event_witness :
    (∃ r, decode [144, 200, 1] = DecodeOutcome.Failed r) ∧
      (⟨0, .NoteOn 60 64⟩ : MidiEvent).inRange = true :=
  ⟨decode_no_invalid_event.1 144 [200, 1] ⟨200, by decide, by decide⟩,
   decode_no_invalid_event.2 [144, 60, 64] ⟨0, .NoteOn 60 64⟩ 3 (by decide)⟩

/-- C7: for every Decoded outcome, bytes_consumed is at most the length of
the input slice — the (total) decoder never reads past the end of the
supplied slice. -/
theorem decode_consumed_le (bytes : List Nat) (evt : MidiEvent) (n : Nat)
    (h : decode bytes = .Decoded evt n) : n ≤ bytes.length := by
  match bytes with
  | [] => exact absurd h (by simp [decode])
  | s :: rest =>
    simp only [decode] at h
    split_ifs at h with h1 h2 h3 h4
    have hn := mkEvent_consumed _ _ _ _ _ h
    have hlen : (rest.take (requiredDataBytes (s / 16))).length =
        requiredDataBytes (s / 16) := by
      simp [List.length_take]
      omega
    simp only [List.length_cons]
    omega

/-- Witness for C7: on `[0x90, 0x3C, 0x40]` the decoder consumes 3 of the
3 available bytes. -/
theorem decode_consumed_le_witness :
    (3 : Nat) ≤ ([144, 60, 64] : List Nat).length :=
  decode_consumed_le [144, 60, 64] ⟨0, .NoteOn 60 64⟩ 3 (by decide)

/-- The report loop distributes over concatenation of frame sequences. -/
theorem processReports_append (xs ys : List RawMidiFrame) :
    processReports (xs ++ ys) = processReports xs ++ processReports ys := by
  induction xs with
  | nil => rfl
  | cons a as ih => simp [processReports, ih]

/-- The report loop is the elementwise mapping of the loop body. -/
theorem processReports_eq_map (frames : List RawMidiFrame) :
    processReports frames = frames.map processFrame := by
  induction frames with
  | nil => rfl
  | cons a as ih => simp [processReports, ih]

/-- Each report carries its frame's timestamp. -/
theorem processFrame_time (f : RawMidiFrame) :
    (processFrame f).time = f.time := by
  unfold processFrame
  split <;> rfl

/-- Each report carries its frame's original raw bytes. -/
theorem processFrame_raw (f : RawMidiFrame) :
    (processFrame f).raw = f.bytes := by
  unfold processFrame
  split <;> rfl

/-- C2: a decode failure on one frame never halts the cycle: the process
callback reports the failing frame as unparseable, still processes every
subsequent frame of the same cycle, and returns `Control.Continue` (never
the stop signal). -/
theorem process_continues_after_failure (pre post : List RawMidiFrame)
    (f : RawMidiFrame) (r : String) (h : decode f.bytes = .Failed r) :
    (∀ frames : List RawMidiFrame,
        (process frames).2 = Control.Continue) ∧
      (process (pre ++ f :: post)).1 =
        processReports pre ++
          Report.unparseable f.bytes f.time :: processReports post := by
  refine ⟨fun frames => rfl, ?_⟩
  simp [process, processReports_append, processReports, processFrame, h]

/-- Witness for C2: a cycle beginning with an empty (undecodable) frame
still reports the following well-formed frame and returns Continue. -/
theorem process_continues_after_failure_witness :
    (process [(⟨0, []⟩ : RawMidiFrame), ⟨1, [144, 60, 64]⟩]).2 =
        Control.Continue ∧
      (process ([] ++ (⟨0, []⟩ : RawMidiFrame) :: [⟨1, [144, 60, 64]⟩])).1 =
        processReports [] ++
          Report.unparseable [] 0 :: processReports [⟨1, [144, 60, 64]⟩] :=
  ⟨(process_continues_after_failure [] [⟨1, [144, 60, 64]⟩] ⟨0, []⟩
      "empty frame" rfl).1 [⟨0, []⟩, ⟨1, [144, 60, 64]⟩],
   (process_continues_after_failure [] [⟨1, [144, 60, 64]⟩] ⟨0, []⟩
      "empty frame" rfl).2⟩

/-- C3: within one cycle the callback emits exactly one outcome per frame,
each paired with that frame's timestamp and its original raw bytes, in
exactly the order the frames were received. -/
theorem process_reports_in_order (frames : List RawMidiFrame) :
    (process frames).1.length = frames.length ∧
    ∀ i : Nat,
      (process frames).1[i]?.map Report.time =
          frames[i]?.map RawMidiFrame.time ∧
        (process frames).1[i]?.map Report.raw =
          frames[i]?.map RawMidiFrame.bytes := by
  constructor
  · simp [process, processReports_eq_map]
  · intro i
    simp only [process, processReports_eq_map, List.getElem?_map]
    cases h : frames[i]? with
    | none => simp [h]
    | some f => simp [h, processFrame_time, processFrame_raw]

/-- `String.intercalate.go` appends each element prefixed by the
separator. -/
theorem intercalate_go_eq (sep : String) (l : List String) (acc : String) :
    String.intercalate.go acc sep l =
      acc ++ String.join (l.map fun a => sep ++ a) := by
  induction l generalizing acc with
  | nil =>
    apply String.ext
    simp [String.intercalate.go, String.data_join]
  | cons a as ih =>
    have hstep : String.intercalate.go acc sep (a :: as) =
        String.intercalate.go (acc ++ sep ++ a) sep as := rfl
    rw [hstep, ih]
    apply String.ext
    simp [String.data_append, String.data_join]

/-- C10: the Debug formatting of RawMidi(b) is "[" followed by the
lowercase, unpadded hexadecimal rendering of each byte in order, separated
by ", ", followed by "]"; in particular the empty slice renders as "[]". -/
theorem rawMidiDebug_spec :
    (∀ bytes : List Nat, rawMidiDebug bytes = rawMidiRendered bytes) ∧
    rawMidiDebug [] = "[]" := by
  refine ⟨?_, rfl⟩
  intro bytes
  cases bytes with
  | nil => rfl
  | cons b rest =>
    have h1 : rawMidiRendered (b :: rest) =
        "[" ++ String.intercalate.go (hexByte b) ", " (rest.map hexByte) ++
          "]" := rfl
    have h2 : rawMidiDebug (b :: rest) =
        "[" ++ (hexByte b ++
          String.join (rest.map fun c => ", " ++ hexByte c)) ++ "]" := rfl
    rw [h1, intercalate_go_eq, h2]
    apply String.ext
    simp [String.data_append, String.data_join, List.map_map,
      Function.comp]
    rfl

end JackMidiSink
